import Mathlib

/-!
Shallow embedding of the `lazychezmoi` terminal front-end (sources:
`src/app.rs`, `src/chezmoi.rs`, `src/utils.rs`).

Modelling conventions:
* Strings are modelled as `List Char` (the status output handled here is
  ASCII, so Rust's byte indexing coincides with character indexing).
* External processes are modelled by a `Gateway` record holding, for each
  command the program runs, the `Output` (exit success flag, stdout, stderr)
  that the run would produce.  The program never runs a command twice with
  the same arguments inside one modelled operation, so a pure oracle is
  faithful.  Process-spawn failure (which makes the Rust code panic or
  propagate an OS error) is outside the model.
* A Rust code path that panics is modelled by `Option`: `none` means the
  operation panics.
* `usize` arithmetic uses `Nat` with explicit wrapping modulo `2 ^ 64`
  where the source can underflow (`files.len() - 1`); release builds wrap,
  debug builds panic at exactly the same inputs.
-/

/-- Character strings, modelled as lists of characters (ASCII). -/
abbrev Str := List Char

/-- From `utils.rs`: per-axis file status parsed from one `chezmoi status` line. -/
inductive FileStatus where
  | Modified
  | Added
  | Deleted
  | Untracked
  | Unchanged
deriving DecidableEq, Inhabited

/-- From `app.rs`: tri-state selection marker of a file row. -/
inductive Selection where
  | None
  | Source
  | Local
deriving DecidableEq, Inhabited

/-- From `app.rs`: actions offered by the popup menu. -/
inductive PopupAction where
  | Apply
  | ReAdd
  | Cancel
deriving DecidableEq, Inhabited

/-- From `app.rs`: one row of the status list. -/
structure FileItem where
  path : Str
  selected : Selection
  local_status : FileStatus
  source_status : FileStatus
deriving DecidableEq, Inhabited

/-- Result of running one external command: exit-status success flag,
standard output and standard error, already decoded to text. -/
structure Output where
  success : Bool
  stdout : Str
  stderr : Str
deriving DecidableEq, Inhabited

/-- Oracle for the external `chezmoi` processes the program spawns: for each
command shape, the `Output` the run would produce (keyed by the argument
list the code passes). -/
structure Gateway where
  status : Output
  diff : Str → Output
  apply : List Str → Output
  re_add : List Str → Output

/-- From `utils.rs` `match` arms mapping one status character to a `FileStatus`. -/
def charToStatus (c : Char) : FileStatus :=
  match c with
  | 'M' => FileStatus.Modified
  | 'A' => FileStatus.Added
  | 'D' => FileStatus.Deleted
  | '?' => FileStatus.Untracked
  | _ => FileStatus.Unchanged

/-- Rust `str::trim`: drop whitespace from both ends. -/
def trimChars (l : Str) : Str :=
  ((l.dropWhile Char.isWhitespace).reverse.dropWhile Char.isWhitespace).reverse

/-- From `utils.rs` `extract_filename_and_status`: the slice `&line[0..2]` panics
(`none`) when the line is shorter than two characters; otherwise the first
two characters give the local and source statuses and the rest, trimmed, is
the path. -/
def extract_filename_and_status (line : Str) : Option (Str × FileStatus × FileStatus) :=
  match line with
  | c0 :: c1 :: rest => some (trimChars rest, charToStatus c0, charToStatus c1)
  | _ => none

/-- Strip one trailing carriage return, as Rust `str::lines` does at a
`\r\n` line ending. -/
def dropTrailingCR (l : Str) : Str :=
  if l.getLast? = some '\r' then l.dropLast else l

/-- Splitting helper for `linesOf`: accumulates the current line reversed. -/
def splitLinesAux : Str → Str → List Str
  | acc, [] => [acc.reverse]
  | acc, c :: r =>
      if c = '\n' then dropTrailingCR acc.reverse :: splitLinesAux [] r
      else splitLinesAux (c :: acc) r

/-- Rust `str::lines`: split at `\n` (stripping a preceding `\r`); a final
line ending does not produce a trailing empty line. -/
def linesOf (s : Str) : List Str :=
  let parts := splitLinesAux [] s
  let parts := if parts.getLast? = some [] then parts.dropLast else parts
  parts

/-- From `chezmoi.rs` `update_status` body: map the parser over the stdout lines,
building rows whose selection is initialised to `None`; a parser panic on
any line propagates (`none`). -/
def parseStatusLines : List Str → Option (List FileItem)
  | [] => some []
  | line :: rest =>
      match extract_filename_and_status line with
      | none => none
      | some (p, ls, ss) =>
          match parseStatusLines rest with
          | none => none
          | some fs =>
              some ({ path := p, selected := Selection.None,
                      local_status := ls, source_status := ss } :: fs)

/-- Models the external `strip_ansi_escapes` crate used by `chezmoi.rs`
`diff`: a small state machine dropping `ESC [ ... final-byte` sequences. -/
inductive AnsiMode where
  | normal
  | esc
  | csi

/-- Worker for `stripAnsi`. -/
def stripAnsiAux : AnsiMode → Str → Str
  | _, [] => []
  | AnsiMode.normal, c :: r =>
      if c = '\x1b' then stripAnsiAux AnsiMode.esc r
      else c :: stripAnsiAux AnsiMode.normal r
  | AnsiMode.esc, c :: r =>
      if c = '[' then stripAnsiAux AnsiMode.csi r
      else stripAnsiAux AnsiMode.normal r
  | AnsiMode.csi, c :: r =>
      if '\x40' ≤ c ∧ c ≤ '\x7e' then stripAnsiAux AnsiMode.normal r
      else stripAnsiAux AnsiMode.csi r

/-- Strip ANSI escape sequences from text. -/
def stripAnsi (s : Str) : Str :=
  stripAnsiAux AnsiMode.normal s

namespace chezmoi

/-- From `chezmoi.rs` `HOME`: prefix attached to every path argument. -/
def HOME : Str := ['~', '/']

/-- From `chezmoi.rs` `update_status`: run `chezmoi status` and parse each stdout
line (the exit status is ignored by the source); `none` models the panic on
a malformed (too short) line. -/
def update_status (gw : Gateway) : Option (List FileItem) :=
  parseStatusLines (linesOf gw.status.stdout)

/-- From `chezmoi.rs` `diff` applied to an already-obtained process `Output`:
the stdout with ANSI escapes stripped; the exit status and stderr are never
inspected. -/
def diffOut (o : Output) : Str :=
  stripAnsi o.stdout

/-- From `chezmoi.rs` `diff`: run `chezmoi diff HOME++path` and return the
stripped stdout; never an error value. -/
def diff (gw : Gateway) (path : Str) : Str :=
  diffOut (gw.diff (HOME ++ path))

/-- From `chezmoi.rs` `apply`: run `chezmoi apply` with each selected path
prefixed by `HOME`; on unsuccessful exit return the stderr text as the
error. -/
def apply (gw : Gateway) (selected_files : List Str) : Except Str Unit :=
  let out := gw.apply (selected_files.map fun f => HOME ++ f)
  if out.success then Except.ok () else Except.error out.stderr

/-- From `chezmoi.rs` `re_add`: same contract as `apply` for `chezmoi re-add`. -/
def re_add (gw : Gateway) (selected_files : List Str) : Except Str Unit :=
  let out := gw.re_add (selected_files.map fun f => HOME ++ f)
  if out.success then Except.ok () else Except.error out.stderr

end chezmoi

/-- From `app.rs` `App`: the mutable session state (the ratatui `ListState`
fields are modelled by their stored selected index). -/
structure App where
  running : Bool
  files : List FileItem
  chezmoi_file_diff : Str
  list_state : Option Nat
  error_message : Option Str
  show_popup : Bool
  popup_items : List (Str × PopupAction)
  popup_state : Option Nat
deriving DecidableEq, Inhabited

/-- The modulus `2 ^ 64` of Rust `usize` arithmetic on 64-bit targets. -/
def USIZE : Nat := 2 ^ 64

/-- Wrapping `usize` subtraction (release-build semantics; a debug build
panics at exactly the inputs where this wraps). -/
def usizeSub (a b : Nat) : Nat :=
  (a + (USIZE - b % USIZE)) % USIZE

/-- From `app.rs` helper: is this status one of the four actionable ones the
selection filters accept. -/
def actionable (s : FileStatus) : Bool :=
  match s with
  | FileStatus.Added => true
  | FileStatus.Modified => true
  | FileStatus.Deleted => true
  | FileStatus.Untracked => true
  | FileStatus.Unchanged => false

/-- From `app.rs` `get_selected_local_files`: paths of rows selected for the
local axis whose local status is actionable. -/
def App.get_selected_local_files (a : App) : List Str :=
  (a.files.filter fun f =>
    decide (f.selected = Selection.Local) && actionable f.local_status).map
    fun f => f.path

/-- From `app.rs` `get_selected_source_files`: paths of rows selected for the
source axis whose source status is actionable. -/
def App.get_selected_source_files (a : App) : List Str :=
  (a.files.filter fun f =>
    decide (f.selected = Selection.Source) && actionable f.source_status).map
    fun f => f.path

/-- From `app.rs` `update_selected_diff`: clear the diff cache, then refill it
from `chezmoi diff` when the highlighted index points at an existing row. -/
def App.update_selected_diff (gw : Gateway) (a : App) : App :=
  match a.list_state with
  | some i =>
      match a.files[i]? with
      | some f => { a with chezmoi_file_diff := chezmoi.diff gw f.path }
      | none => { a with chezmoi_file_diff := [] }
  | none => { a with chezmoi_file_diff := [] }

/-- From `app.rs` `toggle_selected_file` match arms: the next selection value of
one row. -/
def toggleSelection (f : FileItem) : Selection :=
  match f.selected with
  | Selection.None =>
      if f.local_status ≠ FileStatus.Unchanged then Selection.Local
      else Selection.Source
  | Selection.Local =>
      if f.source_status ≠ FileStatus.Unchanged then Selection.Source
      else Selection.None
  | Selection.Source => Selection.None

/-- From `app.rs` `toggle_selected_file`: rotate the selection of the highlighted
row, if there is one. -/
def App.toggle_selected_file (a : App) : App :=
  match a.list_state with
  | some i =>
      match a.files[i]? with
      | some f =>
          { a with files := a.files.set i { f with selected := toggleSelection f } }
      | none => a
  | none => a

/-- From `app.rs` `apply_selected_files`: no-op when nothing is selected for the
source axis; on gateway success reset every selection, replace the list by a
fresh status fetch (`none` models the panic of that fetch), refetch the diff
and clear the error; on gateway failure store the error text only. -/
def App.apply_selected_files (gw : Gateway) (a : App) : Option App :=
  let selected_files := a.get_selected_source_files
  if selected_files.isEmpty then some a
  else
    match chezmoi.apply gw selected_files with
    | Except.ok _ =>
        let a1 := { a with files := a.files.map fun (f : FileItem) => { f with selected := Selection.None } }
        match chezmoi.update_status gw with
        | none => none
        | some fs =>
            let a2 := App.update_selected_diff gw { a1 with files := fs }
            some { a2 with error_message := none }
    | Except.error e => some { a with error_message := some e }

/-- From `app.rs` `re_add_selected_files`: same shape as `apply_selected_files`
over the local axis and `chezmoi re-add`. -/
def App.re_add_selected_files (gw : Gateway) (a : App) : Option App :=
  let selected_files := a.get_selected_local_files
  if selected_files.isEmpty then some a
  else
    match chezmoi.re_add gw selected_files with
    | Except.ok _ =>
        let a1 := { a with files := a.files.map fun (f : FileItem) => { f with selected := Selection.None } }
        match chezmoi.update_status gw with
        | none => none
        | some fs =>
            let a2 := App.update_selected_diff gw { a1 with files := fs }
            some { a2 with error_message := none }
    | Except.error e => some { a with error_message := some e }

/-- From `app.rs` `next_item`: move the highlighted index down with the source's
`len - 1` computed in wrapping `usize` arithmetic, then refetch the diff. -/
def App.next_item (gw : Gateway) (a : App) : App :=
  let i :=
    match a.list_state with
    | some i => if usizeSub a.files.length 1 ≤ i then 0 else i + 1
    | none => 0
  App.update_selected_diff gw { a with list_state := some i }

/-- From `app.rs` `previous_item`: move the highlighted index up with the
source's `len - 1` computed in wrapping `usize` arithmetic, then refetch the
diff. -/
def App.previous_item (gw : Gateway) (a : App) : App :=
  let i :=
    match a.list_state with
    | some i => if i = 0 then usizeSub a.files.length 1 else i - 1
    | none => 0
  App.update_selected_diff gw { a with list_state := some i }

/-- From `app.rs` `App::new`: fetch the status (`none` models the panic of that
fetch), highlight index 0, fetch the diff of the highlighted row. -/
def App.new (gw : Gateway) : Option App :=
  (chezmoi.update_status gw).map fun fs =>
    App.update_selected_diff gw
      { running := false, files := fs, chezmoi_file_diff := [],
        list_state := some 0, error_message := none, show_popup := false,
        popup_items := [], popup_state := none }

/-- Spec §3 invariant on selections: `Local` only on a changed local axis,
`Source` only on a changed source axis. -/
def selectionInvariant (a : App) : Prop :=
  ∀ f ∈ a.files,
    (f.selected = Selection.Local → f.local_status ≠ FileStatus.Unchanged) ∧
    (f.selected = Selection.Source → f.source_status ≠ FileStatus.Unchanged)

/-- Spec §3 cursor validity: a non-empty file list has a highlighted index
inside `[0, len)`. -/
def App.cursorValid (a : App) : Bool :=
  a.files.isEmpty ||
    (match a.list_state with
     | some i => decide (i < a.files.length)
     | none => false)

instance (a : App) : Decidable (selectionInvariant a) := by
  unfold selectionInvariant
  infer_instance

/-- A gateway whose every command succeeds with empty output. -/
def gwTriv : Gateway :=
  { status := { success := true, stdout := [], stderr := [] },
    diff := fun _ => { success := true, stdout := [], stderr := [] },
    apply := fun _ => { success := true, stdout := [], stderr := [] },
    re_add := fun _ => { success := true, stdout := [], stderr := [] } }

/-- Session state with an empty file list and the index 0 that `App::new`
selects unconditionally. -/
def appNoFiles : App :=
  { running := true, files := [], chezmoi_file_diff := [], list_state := some 0,
    error_message := none, show_popup := false, popup_items := [], popup_state := none }

/-- A row with both status axes `Unchanged`. -/
def fUnch : FileItem :=
  { path := ['a'], selected := Selection.None,
    local_status := FileStatus.Unchanged, source_status := FileStatus.Unchanged }

/-- Session state highlighting the single row `fUnch`. -/
def appUnch : App := { appNoFiles with files := [fUnch] }

/-- A row selected on the source axis with an actionable source status. -/
def fSel : FileItem :=
  { path := ['b'], selected := Selection.Source,
    local_status := FileStatus.Unchanged, source_status := FileStatus.Modified }

/-- Session state with two rows, the second one selected for apply, and the
highlighted index on the second row. -/
def appTwo : App := { appNoFiles with files := [fUnch, fSel], list_state := some 1 }

/-- Gateway whose `status` reports exactly one changed file. -/
def gwOne : Gateway :=
  { gwTriv with status := { success := true, stdout := ['M', ' ', ' ', 'a', '\n'], stderr := [] } }

/-- A gateway whose apply and re-add runs fail with a fixed stderr text. -/
def gwFail : Gateway :=
  { gwTriv with
    apply := fun _ => { success := false, stdout := [], stderr := ['b', 'a', 'd'] },
    re_add := fun _ => { success := false, stdout := [], stderr := ['b', 'a', 'd'] } }

/-- The state produced by a successful apply/re-add: list replaced by the
fresh fetch `fs`, diff refetched, error cleared. -/
def App.refreshAfter (gw : Gateway) (a : App) (fs : List FileItem) : App :=
  { App.update_selected_diff gw { a with files := fs } with error_message := none }

/-- The row that parsing the status line of `gwOne` produces. -/
def fParsedA : FileItem :=
  { path := ['a'], selected := Selection.None,
    local_status := FileStatus.Modified, source_status := FileStatus.Unchanged }

/-- A row with both axes changed, unselected. -/
def fBoth : FileItem :=
  { path := ['c'], selected := Selection.None,
    local_status := FileStatus.Modified, source_status := FileStatus.Modified }

/-- Session state highlighting the single row `fBoth`. -/
def appBoth : App := { appNoFiles with files := [fBoth] }

/-- Refreshing the diff (`update_selected_diff`) only writes the diff cache: file list, cursor and
error message are untouched. -/
theorem update_selected_diff_state (gw : Gateway) (a : App) :
    (App.update_selected_diff gw a).files = a.files ∧
    (App.update_selected_diff gw a).list_state = a.list_state ∧
    (App.update_selected_diff gw a).error_message = a.error_message := by
  unfold App.update_selected_diff
  split
  · split
    · exact ⟨rfl, rfl, rfl⟩
    · exact ⟨rfl, rfl, rfl⟩
  · exact ⟨rfl, rfl, rfl⟩

/-- On a length below `2 ^ 64`, the wrapped `len - 1` agrees with plain
subtraction. -/
theorem usizeSub_one (n : Nat) (h1 : 1 ≤ n) (h2 : n < USIZE) :
    usizeSub n 1 = n - 1 := by
  have hU : USIZE = 18446744073709551616 := by norm_num [USIZE]
  simp only [usizeSub, hU] at *
  omega

/-- Every row built by the status parser starts unselected. -/
theorem parseStatusLines_selected_none :
    ∀ (ls : List Str) (fs : List FileItem), parseStatusLines ls = some fs →
      ∀ f ∈ fs, f.selected = Selection.None := by
  intro ls
  induction ls with
  | nil =>
      intro fs h f hf
      unfold parseStatusLines at h
      cases h
      cases hf
  | cons line rest ih =>
      intro fs h f hf
      unfold parseStatusLines at h
      cases hx : extract_filename_and_status line with
      | none => rw [hx] at h; cases h
      | some t =>
          obtain ⟨p, s1, s2⟩ := t
          simp only [hx] at h
          cases hr : parseStatusLines rest with
          | none => rw [hr] at h; cases h
          | some fs2 =>
              simp only [hr, Option.some.injEq] at h
              subst h
              cases hf with
              | head => rfl
              | tail _ hmem => exact ih fs2 hr f hmem

/-- C10: the status-line parser panics (returns `none` in this model) on
every line shorter than two characters, including the empty line, and is
total on every line of length at least two, so callers must guarantee lines
of length at least 2. -/
theorem C10_parser_partiality (line : Str) :
    (line.length < 2 → extract_filename_and_status line = none) ∧
    (2 ≤ line.length → (extract_filename_and_status line).isSome = true) := by
  cases line with
  | nil => simp [extract_filename_and_status]
  | cons c0 t =>
      cases t with
      | nil => simp [extract_filename_and_status]
      | cons c1 r =>
          refine ⟨fun h => ?_, fun _ => rfl⟩
          simp only [List.length_cons] at h
          omega

theorem C10_parser_partiality_witness :
    extract_filename_and_status [] = none ∧
    (extract_filename_and_status ['M', ' ', ' ', 'a']).isSome = true :=
  ⟨(C10_parser_partiality []).1 (by decide),
   (C10_parser_partiality ['M', ' ', ' ', 'a']).2 (by decide)⟩

/-- C3: on an empty file list with the highlighted index 0 (the state
`App::new` produces when `chezmoi status` reports nothing), `next_item` and
`previous_item` are NOT no-ops: `files.len() - 1` underflows, so the moves
set the index to 1 and to `2 ^ 64 - 1` respectively (and a debug build
panics at the subtraction). -/
theorem C3_empty_list_navigation_bug :
    appNoFiles.files = [] ∧ appNoFiles.list_state = some 0 ∧
    (App.next_item gwTriv appNoFiles).list_state = some 1 ∧
    (App.previous_item gwTriv appNoFiles).list_state = some (USIZE - 1) := by
  refine ⟨rfl, rfl, ?_, ?_⟩ <;> decide

/-- C6: when the computed selected-path subset for the requested axis is
empty, apply and re-add return the state unchanged, for every gateway (so
no gateway call can influence the result). -/
theorem C6_empty_selection_noop (gw : Gateway) (a : App) :
    (a.get_selected_source_files = [] → App.apply_selected_files gw a = some a) ∧
    (a.get_selected_local_files = [] → App.re_add_selected_files gw a = some a) := by
  constructor
  · intro h
    simp [App.apply_selected_files, h]
  · intro h
    simp [App.re_add_selected_files, h]

theorem C6_empty_selection_noop_witness :
    App.apply_selected_files gwTriv appUnch = some appUnch ∧
    App.re_add_selected_files gwTriv appUnch = some appUnch :=
  ⟨(C6_empty_selection_noop gwTriv appUnch).1 (by decide),
   (C6_empty_selection_noop gwTriv appUnch).2 (by decide)⟩

/-- C9: the diff fetch is total (never an error value): its result depends
only on the command's stdout, ignoring the exit status, it is the empty
string whenever stdout is empty, and refreshing the diff pane leaves the
file list, cursor and stored error message untouched. -/
theorem C9_diff_never_errors (gw : Gateway) (a : App) (o : Output) (b : Bool) :
    (o.stdout = [] → chezmoi.diffOut o = []) ∧
    chezmoi.diffOut { o with success := b } = chezmoi.diffOut o ∧
    (App.update_selected_diff gw a).error_message = a.error_message ∧
    (App.update_selected_diff gw a).files = a.files ∧
    (App.update_selected_diff gw a).list_state = a.list_state := by
  refine ⟨fun h => ?_, rfl, (update_selected_diff_state gw a).2.2,
    (update_selected_diff_state gw a).1, (update_selected_diff_state gw a).2.1⟩
  simp [chezmoi.diffOut, h, stripAnsi, stripAnsiAux]

theorem C9_diff_never_errors_witness :
    chezmoi.diffOut { success := false, stdout := [], stderr := ['b', 'o', 'o', 'm'] } = [] :=
  (C9_diff_never_errors gwTriv appNoFiles
    { success := false, stdout := [], stderr := ['b', 'o', 'o', 'm'] } true).1 rfl

/-- C4: when the tool run behind apply (respectively re-add) exits
unsuccessfully, the whole state -- file list, selections, highlighted index,
diff cache -- is exactly as before, except that the stored error message is
the stderr text the tool reported. -/
theorem C4_failure_preserves_state (gw : Gateway) (a : App) (outA outR : Output) :
    (a.get_selected_source_files ≠ [] →
      gw.apply (a.get_selected_source_files.map fun f => chezmoi.HOME ++ f) = outA →
      outA.success = false →
      App.apply_selected_files gw a = some { a with error_message := some outA.stderr }) ∧
    (a.get_selected_local_files ≠ [] →
      gw.re_add (a.get_selected_local_files.map fun f => chezmoi.HOME ++ f) = outR →
      outR.success = false →
      App.re_add_selected_files gw a = some { a with error_message := some outR.stderr }) := by
  constructor
  · intro hne hout hfail
    have hE : a.get_selected_source_files.isEmpty = false :=
      List.isEmpty_eq_false.mpr hne
    simp [App.apply_selected_files, chezmoi.apply, hE, hout, hfail]
  · intro hne hout hfail
    have hE : a.get_selected_local_files.isEmpty = false :=
      List.isEmpty_eq_false.mpr hne
    simp [App.re_add_selected_files, chezmoi.re_add, hE, hout, hfail]

theorem C4_failure_preserves_state_witness :
    App.apply_selected_files gwFail appTwo =
      some { appTwo with error_message := some ['b', 'a', 'd'] } :=
  (C4_failure_preserves_state gwFail appTwo
      { success := false, stdout := [], stderr := ['b', 'a', 'd'] }
      { success := false, stdout := [], stderr := ['b', 'a', 'd'] }).1
    (by decide) rfl rfl

/-- C5: when the tool run behind apply (respectively re-add) succeeds, the
resulting file list is exactly the freshly fetched status, every entry of it
is unselected, and the stored error message is cleared. -/
theorem C5_success_refresh (gw : Gateway) (a : App) (fs : List FileItem)
    (hst : chezmoi.update_status gw = some fs) :
    (a.get_selected_source_files ≠ [] →
      (gw.apply (a.get_selected_source_files.map fun f => chezmoi.HOME ++ f)).success = true →
      ∃ a2, App.apply_selected_files gw a = some a2 ∧ a2.files = fs ∧
        (∀ f ∈ a2.files, f.selected = Selection.None) ∧ a2.error_message = none) ∧
    (a.get_selected_local_files ≠ [] →
      (gw.re_add (a.get_selected_local_files.map fun f => chezmoi.HOME ++ f)).success = true →
      ∃ a2, App.re_add_selected_files gw a = some a2 ∧ a2.files = fs ∧
        (∀ f ∈ a2.files, f.selected = Selection.None) ∧ a2.error_message = none) := by
  have hfiles : (App.refreshAfter gw a fs).files = fs :=
    (update_selected_diff_state gw _).1
  have hsel : ∀ f ∈ (App.refreshAfter gw a fs).files, f.selected = Selection.None := by
    rw [hfiles]
    exact parseStatusLines_selected_none _ fs hst
  constructor
  · intro hne hsucc
    have hE : a.get_selected_source_files.isEmpty = false :=
      List.isEmpty_eq_false.mpr hne
    refine ⟨App.refreshAfter gw a fs, ?_, hfiles, hsel, rfl⟩
    simp [App.apply_selected_files, chezmoi.apply, hE, hsucc, hst, App.refreshAfter]
  · intro hne hsucc
    have hE : a.get_selected_local_files.isEmpty = false :=
      List.isEmpty_eq_false.mpr hne
    refine ⟨App.refreshAfter gw a fs, ?_, hfiles, hsel, rfl⟩
    simp [App.re_add_selected_files, chezmoi.re_add, hE, hsucc, hst, App.refreshAfter]

theorem C5_success_refresh_witness :
    ∃ a2, App.apply_selected_files gwOne appTwo = some a2 ∧ a2.files = [fParsedA] ∧
      (∀ f ∈ a2.files, f.selected = Selection.None) ∧ a2.error_message = none :=
  (C5_success_refresh gwOne appTwo [fParsedA] (by decide)).1 (by decide) (by decide)

/-- C1 fails as stated: on a row whose two statuses are both `Unchanged`
(and which therefore satisfies the invariant with `selected = None`), one
toggle yields `Source`, whose axis is `Unchanged`. -/
theorem C1_counterexample :
    selectionInvariant appUnch ∧
    ((App.toggle_selected_file appUnch).files.map fun f => f.selected) = [Selection.Source] ∧
    ¬ selectionInvariant (App.toggle_selected_file appUnch) := by
  refine ⟨by decide, by decide, by decide⟩

/-- C1 (amended): the selection invariant is preserved by the toggle
provided every row has at least one status axis different from `Unchanged`;
the only violating transition is `None → Source` on a row with both axes
`Unchanged`. -/
theorem C1_toggle_preserves_invariant (a : App)
    (hinv : selectionInvariant a)
    (hch : ∀ f ∈ a.files, f.local_status ≠ FileStatus.Unchanged ∨
      f.source_status ≠ FileStatus.Unchanged) :
    selectionInvariant (App.toggle_selected_file a) := by
  unfold selectionInvariant at hinv ⊢
  cases h1 : a.list_state with
  | none => simpa [App.toggle_selected_file, h1] using hinv
  | some i =>
      cases h2 : a.files[i]? with
      | none => simpa [App.toggle_selected_file, h1, h2] using hinv
      | some f =>
          intro g hg
          simp only [App.toggle_selected_file, h1, h2] at hg
          rcases List.mem_or_eq_of_mem_set hg with hgm | rfl
          · exact hinv g hgm
          · have hf : f ∈ a.files := List.getElem?_mem h2
            have hax := hch f hf
            rcases f with ⟨p, sel, ls, ss⟩
            cases sel <;> simp only [toggleSelection] <;> first | (split_ifs with h <;> simp_all) | simp_all

theorem C1_toggle_preserves_invariant_witness :
    selectionInvariant (App.toggle_selected_file appBoth) :=
  C1_toggle_preserves_invariant appBoth (by decide) (by decide)

/-- One toggle rewrites exactly the highlighted row, leaving the cursor in
place. -/
theorem toggle_get (a : App) (i : Nat) (f : FileItem)
    (h1 : a.list_state = some i) (h2 : a.files[i]? = some f) :
    (App.toggle_selected_file a).files[i]? = some { f with selected := toggleSelection f } ∧
    (App.toggle_selected_file a).list_state = some i := by
  have hlen : i < a.files.length := by
    obtain ⟨h, _⟩ := List.getElem?_eq_some_iff.mp h2
    exact h
  simp only [App.toggle_selected_file, h1, h2]
  constructor
  · rw [List.getElem?_set_self (by simpa using hlen)]
  · trivial

/-- C7: on a highlighted row with both axes changed, the toggle cycles
`None → Local → Source → None`, and three consecutive toggles restore the
row's starting selection whatever it was. -/
theorem C7_toggle_cycle (a : App) (i : Nat) (f : FileItem)
    (h1 : a.list_state = some i) (h2 : a.files[i]? = some f)
    (hl : f.local_status ≠ FileStatus.Unchanged)
    (hs : f.source_status ≠ FileStatus.Unchanged) :
    (f.selected = Selection.None →
      ((App.toggle_selected_file a).files[i]?.map FileItem.selected
          = some Selection.Local) ∧
      ((App.toggle_selected_file (App.toggle_selected_file a)).files[i]?.map FileItem.selected
          = some Selection.Source) ∧
      ((App.toggle_selected_file (App.toggle_selected_file (App.toggle_selected_file a))).files[i]?.map FileItem.selected
          = some Selection.None)) ∧
    ((App.toggle_selected_file (App.toggle_selected_file (App.toggle_selected_file a))).files[i]?.map FileItem.selected
        = some f.selected) := by
  obtain ⟨g1, l1⟩ := toggle_get a i f h1 h2
  obtain ⟨g2, l2⟩ := toggle_get _ i _ l1 g1
  obtain ⟨g3, l3⟩ := toggle_get _ i _ l2 g2
  rcases f with ⟨p, sel, ls, ss⟩
  dsimp only at hl hs g1 g2 g3 ⊢
  constructor
  · intro hsel
    subst hsel
    simp only [toggleSelection] at g1 g2 g3
    simp only [hl, hs, ne_eq, not_false_iff, if_true, ite_true] at g1 g2 g3
    rw [g1, g2, g3]
    simp
  · cases sel <;>
      simp only [toggleSelection] at g3 <;>
      simp only [hl, hs, ne_eq, not_false_iff, if_true, ite_true] at g3 <;>
      rw [g3] <;> simp

theorem C7_toggle_cycle_witness :
    (App.toggle_selected_file appBoth).files[0]?.map FileItem.selected = some Selection.Local ∧
    ((App.toggle_selected_file (App.toggle_selected_file (App.toggle_selected_file appBoth))).files[0]?.map FileItem.selected
        = some Selection.None) :=
  ⟨((C7_toggle_cycle appBoth 0 fBoth rfl (by decide) (by decide) (by decide)).1 (by decide)).1,
   ((C7_toggle_cycle appBoth 0 fBoth rfl (by decide) (by decide) (by decide)).1 (by decide)).2.2⟩

/-- Moving down (`next_item`) only rewrites the cursor (by the source's wrapping
arithmetic) and the diff cache. -/
theorem next_item_state (gw : Gateway) (a : App) :
    (App.next_item gw a).list_state =
      some (match a.list_state with
            | some i => if usizeSub a.files.length 1 ≤ i then 0 else i + 1
            | none => 0) ∧
    (App.next_item gw a).files = a.files ∧
    (App.next_item gw a).error_message = a.error_message :=
  ⟨(update_selected_diff_state _ _).2.1, (update_selected_diff_state _ _).1,
   (update_selected_diff_state _ _).2.2⟩

/-- Moving up (`previous_item`) only rewrites the cursor (by the source's wrapping
arithmetic) and the diff cache. -/
theorem previous_item_state (gw : Gateway) (a : App) :
    (App.previous_item gw a).list_state =
      some (match a.list_state with
            | some i => if i = 0 then usizeSub a.files.length 1 else i - 1
            | none => 0) ∧
    (App.previous_item gw a).files = a.files ∧
    (App.previous_item gw a).error_message = a.error_message :=
  ⟨(update_selected_diff_state _ _).2.1, (update_selected_diff_state _ _).1,
   (update_selected_diff_state _ _).2.2⟩

/-- C8: on a non-empty list (of realisable size) with a valid highlighted
index, `next_item` and `previous_item` are mutually inverse on the cursor;
`next_item` wraps `len-1` to `0`, `previous_item` wraps `0` to `len-1`, and
otherwise they step by plus and minus one. -/
theorem C8_navigation_inverses (gw : Gateway) (a : App) (i : Nat)
    (hne : a.files ≠ []) (hU : a.files.length < USIZE)
    (hi : a.list_state = some i) (hv : i < a.files.length) :
    (App.previous_item gw (App.next_item gw a)).list_state = some i ∧
    (App.next_item gw (App.previous_item gw a)).list_state = some i ∧
    (i = a.files.length - 1 → (App.next_item gw a).list_state = some 0) ∧
    (i = 0 → (App.previous_item gw a).list_state = some (a.files.length - 1)) ∧
    (i ≠ a.files.length - 1 → (App.next_item gw a).list_state = some (i + 1)) ∧
    (i ≠ 0 → (App.previous_item gw a).list_state = some (i - 1)) := by
  have hpos : 1 ≤ a.files.length := List.length_pos.mpr hne
  have hw : usizeSub a.files.length 1 = a.files.length - 1 := usizeSub_one _ hpos hU
  obtain ⟨n1, n2, -⟩ := next_item_state gw a
  obtain ⟨p1, p2, -⟩ := previous_item_state gw a
  rw [hi] at n1 p1
  dsimp only at n1 p1
  simp only [hw] at n1 p1
  obtain ⟨np1, -, -⟩ := previous_item_state gw (App.next_item gw a)
  obtain ⟨pn1, -, -⟩ := next_item_state gw (App.previous_item gw a)
  rw [n1] at np1
  rw [p1] at pn1
  dsimp only at np1 pn1
  simp only [n2, p2, hw] at np1 pn1
  refine ⟨?_, ?_, ?_, ?_, ?_, ?_⟩
  · rw [np1]
    simp only [Option.some.injEq]
    by_cases hc : a.files.length - 1 ≤ i <;>
      simp [hc] <;>
      first
      | (split_ifs <;> omega)
      | omega
  · rw [pn1]
    simp only [Option.some.injEq]
    by_cases hc : i = 0 <;>
      simp [hc] <;>
      first
      | (split_ifs <;> omega)
      | omega
  · intro h
    rw [n1]
    simp only [Option.some.injEq]
    split_ifs <;> omega
  · intro h
    rw [p1]
    simp only [Option.some.injEq]
    split_ifs <;> omega
  · intro h
    rw [n1]
    simp only [Option.some.injEq]
    split_ifs <;> omega
  · intro h
    rw [p1]
    simp only [Option.some.injEq]
    split_ifs <;> omega

theorem C8_navigation_inverses_witness :
    (App.previous_item gwTriv (App.next_item gwTriv appTwo)).list_state = some 1 ∧
    (App.next_item gwTriv appTwo).list_state = some 0 :=
  ⟨(C8_navigation_inverses gwTriv appTwo 1 (by decide) (by decide) rfl (by decide)).1,
   (C8_navigation_inverses gwTriv appTwo 1 (by decide) (by decide) rfl
      (by decide)).2.2.1 (by decide)⟩

/-- Validity of the cursor only depends on the file list and the cursor. -/
theorem cursorValid_congr (a b : App) (h1 : a.files = b.files)
    (h2 : a.list_state = b.list_state) : a.cursorValid = b.cursorValid := by
  unfold App.cursorValid
  rw [h1, h2]

/-- Unfolding characterisation of `cursorValid`. -/
theorem cursorValid_eq_true (a : App) :
    a.cursorValid = true ↔
      (a.files = [] ∨ ∃ i, a.list_state = some i ∧ i < a.files.length) := by
  unfold App.cursorValid
  cases h : a.list_state with
  | none => simp [List.isEmpty_iff]
  | some i => simp [List.isEmpty_iff]

/-- The toggle keeps the cursor and the list length. -/
theorem toggle_state (a : App) :
    (App.toggle_selected_file a).list_state = a.list_state ∧
    (App.toggle_selected_file a).files.length = a.files.length := by
  unfold App.toggle_selected_file
  split
  · split
    · exact ⟨rfl, by simp⟩
    · exact ⟨rfl, rfl⟩
  · exact ⟨rfl, rfl⟩

/-- Apply and re-add never rewrite the stored cursor index, on any of their
paths (no-op, failure, or successful refresh). -/
theorem apply_keeps_cursor (gw : Gateway) (a : App) :
    (∀ a2, App.apply_selected_files gw a = some a2 → a2.list_state = a.list_state) ∧
    (∀ a2, App.re_add_selected_files gw a = some a2 → a2.list_state = a.list_state) := by
  constructor
  · intro a2 h
    simp only [App.apply_selected_files] at h
    cases hE : a.get_selected_source_files.isEmpty with
    | true =>
        simp only [hE, if_true] at h
        injection h with h
        subst h
        rfl
    | false =>
        simp only [hE, Bool.false_eq_true, if_false] at h
        cases hap : chezmoi.apply gw a.get_selected_source_files with
        | ok u =>
            rw [hap] at h
            dsimp only at h
            cases hst : chezmoi.update_status gw with
            | none => rw [hst] at h; cases h
            | some fs =>
                rw [hst] at h
                dsimp only at h
                injection h with h
                subst h
                exact (update_selected_diff_state gw _).2.1
        | error e =>
            rw [hap] at h
            dsimp only at h
            injection h with h
            subst h
            rfl
  · intro a2 h
    simp only [App.re_add_selected_files] at h
    cases hE : a.get_selected_local_files.isEmpty with
    | true =>
        simp only [hE, if_true] at h
        injection h with h
        subst h
        rfl
    | false =>
        simp only [hE, Bool.false_eq_true, if_false] at h
        cases hap : chezmoi.re_add gw a.get_selected_local_files with
        | ok u =>
            rw [hap] at h
            dsimp only at h
            cases hst : chezmoi.update_status gw with
            | none => rw [hst] at h; cases h
            | some fs =>
                rw [hst] at h
                dsimp only at h
                injection h with h
                subst h
                exact (update_selected_diff_state gw _).2.1
        | error e =>
            rw [hap] at h
            dsimp only at h
            injection h with h
            subst h
            rfl

/-- C2 (amended): the cursor invariant holds after startup, navigation and
toggling; apply and re-add never change the stored cursor index, so it
still holds after a failed or list-preserving refresh, and after a
successful refresh it holds exactly when the old index is below the
refetched list's length — a refresh returning a shorter list leaves the
index out of range (see the counterexample). -/
theorem C2_cursor_validity (gw : Gateway) (a : App) :
    (∀ a0, App.new gw = some a0 → a0.cursorValid = true) ∧
    (a.files ≠ [] → a.files.length < USIZE → (App.next_item gw a).cursorValid = true) ∧
    (a.cursorValid = true → a.files.length < USIZE →
      (App.previous_item gw a).cursorValid = true) ∧
    (a.cursorValid = true → (App.toggle_selected_file a).cursorValid = true) ∧
    (∀ a2, App.apply_selected_files gw a = some a2 → a2.list_state = a.list_state) ∧
    (∀ a2, App.re_add_selected_files gw a = some a2 → a2.list_state = a.list_state) ∧
    (∀ a2 i, App.apply_selected_files gw a = some a2 → a.list_state = some i →
      i < a2.files.length → a2.cursorValid = true) := by
  refine ⟨?_, ?_, ?_, ?_, (apply_keeps_cursor gw a).1, (apply_keeps_cursor gw a).2, ?_⟩
  · intro a0 h0
    unfold App.new at h0
    cases hst : chezmoi.update_status gw with
    | none => rw [hst] at h0; cases h0
    | some fs =>
        rw [hst] at h0
        dsimp only [Option.map] at h0
        injection h0 with h0
        subst h0
        rw [cursorValid_congr _ _ (update_selected_diff_state gw _).1
          (update_selected_diff_state gw _).2.1]
        rw [cursorValid_eq_true]
        cases fs with
        | nil => exact Or.inl rfl
        | cons f t => exact Or.inr ⟨0, rfl, by simp⟩
  · intro hne hU
    have hpos : 1 ≤ a.files.length := List.length_pos.mpr hne
    have hw := usizeSub_one _ hpos hU
    obtain ⟨n1, n2, -⟩ := next_item_state gw a
    rw [cursorValid_eq_true]
    refine Or.inr ?_
    cases hi : a.list_state with
    | none =>
        rw [hi] at n1
        dsimp only at n1
        exact ⟨0, n1, by rw [n2]; omega⟩
    | some i =>
        rw [hi] at n1
        dsimp only at n1
        refine ⟨_, n1, ?_⟩
        rw [n2, hw]
        split_ifs <;> omega
  · intro h hU
    obtain ⟨p1, p2, -⟩ := previous_item_state gw a
    rw [cursorValid_eq_true] at h ⊢
    rcases h with hnil | ⟨i, hi, hlt⟩
    · exact Or.inl (by rw [p2]; exact hnil)
    · have hw := usizeSub_one a.files.length (by omega) hU
      rw [hi] at p1
      dsimp only at p1
      refine Or.inr ⟨_, p1, ?_⟩
      rw [p2, hw]
      split_ifs <;> omega
  · intro h
    obtain ⟨t1, t2⟩ := toggle_state a
    rw [cursorValid_eq_true] at h ⊢
    rcases h with hnil | ⟨i, hi, hlt⟩
    · refine Or.inl ?_
      rw [← List.length_eq_zero, t2, List.length_eq_zero]
      exact hnil
    · exact Or.inr ⟨i, by rw [t1]; exact hi, by rw [t2]; exact hlt⟩
  · intro a2 i hap hls hlen
    rw [cursorValid_eq_true]
    refine Or.inr ⟨i, ?_, hlen⟩
    rw [(apply_keeps_cursor gw a).1 a2 hap]
    exact hls

theorem C2_cursor_validity_witness :
    (App.next_item gwTriv appTwo).cursorValid = true ∧
    (App.toggle_selected_file appTwo).cursorValid = true :=
  ⟨(C2_cursor_validity gwTriv appTwo).2.1 (by decide) (by decide),
   (C2_cursor_validity gwTriv appTwo).2.2.2.1 (by decide)⟩

/-- C2 fails as stated for the post-success refresh: from two files with the
cursor on index 1, a successful apply whose status refetch returns a single
file leaves the cursor at 1, outside `[0, 1)`, with a non-empty list. -/
theorem C2_counterexample :
    ((App.apply_selected_files gwOne appTwo).map fun x => x.files.length) = some 1 ∧
    ((App.apply_selected_files gwOne appTwo).map fun x => x.list_state) = some (some 1) ∧
    ((App.apply_selected_files gwOne appTwo).map App.cursorValid) = some false := by
  refine ⟨by decide, by decide, by decide⟩
